import Mathlib

/-!
Verification development for the ASCIIGenerator frame pipeline
(`src/GENERATORASCII.py`, class `VideoASCIIConverter`).

Frames are modelled as `List (List ℕ)` of unsigned 8-bit samples
(single-channel grids; the source handles the 2-D branch of every
`len(frame.shape)` test identically).  Floating-point arithmetic of the
source is modelled as exact rational arithmetic, carried out on explicit
integer numerators over positive integer denominators so that every
reachable computation reduces in the kernel.  Fallible source operations
(Python `ZeroDivisionError`, `KeyError`, OpenCV assertion failures) are
modelled with `Option`.

External OpenCV primitives (`cv2.resize`, `cv2.GaussianBlur`, `cv2.Canny`,
`cv2.normalize`, `cv2.absdiff`) have no source in this repository; they are
modelled from the spec where it describes them (bilinear interpolation,
Gaussian-style separable smoothing, two-threshold gradient edge extraction,
min-max stretch, absolute difference).
-/

/-- Parameter Set: the `self.settings` dictionary of the converter
(source lines 35-49), with the same field names.  Real-valued settings are
exact rationals. -/
structure Settings where
  width : ℕ
  height : ℕ
  fps : ℚ
  char_set : String
  color_mode : String
  contrast : ℚ
  brightness : ℚ
  gamma : ℚ
  invert : Bool
  edge_detection : Bool
  depth_effect : Bool
  blur : ℚ
  quality : String

/-- Default settings dictionary (source lines 35-49):
width 80, height 24, fps 10, char_set standard, color_mode grayscale,
contrast 1.0, brightness 0.0, gamma 1.0, invert false, edge_detection false,
depth_effect false, blur 0, quality medium. -/
def defaultSettings : Settings :=
  Settings.mk 80 24 10 ("standard") ("grayscale") 1 0 1 false false false 0 ("medium")

/-- Record update for the `char_set` field (settings are mutated through
plain dictionary updates in the source; no validation happens). -/
def withCharSet (s : Settings) (v : String) : Settings :=
  Settings.mk s.width s.height s.fps v s.color_mode s.contrast s.brightness s.gamma
    s.invert s.edge_detection s.depth_effect s.blur s.quality

/-- Record update for the `color_mode` field. -/
def withColorMode (s : Settings) (v : String) : Settings :=
  Settings.mk s.width s.height s.fps s.char_set v s.contrast s.brightness s.gamma
    s.invert s.edge_detection s.depth_effect s.blur s.quality

/-- Glyph ramp `simple` (source line 24). -/
def simpleRamp : String := " .:-=+*#%@"

/-- Glyph ramp `standard` (source line 25). -/
def standardRamp : String :=
  " .'`^\",:;Il!i><~+_-?][\x7d\x7b1)(|\\/tfjrxnuvczXYUJCLQ0OZmwqpdbkhao*#MW&8%B@$"

/-- Glyph ramp `detailed` (source line 26; transcribed independently of
`standardRamp`). -/
def detailedRamp : String :=
  " .'`^\",:;Il!i><~+_-?][\x7d\x7b1)(|\\/tfjrxnuvczXYUJCLQ0OZmwqpdbkhao*#MW&8%B@$"

/-- Glyph ramp `gradient` (source line 27). -/
def gradientRamp : String := " ░▒▓█"

/-- Glyph ramp `blocks` (source line 28). -/
def blocksRamp : String := " ▁▂▃▄▅▆▇█"

/-- The `self.ascii_chars` dictionary (source lines 23-29): a lookup that
fails (Python `KeyError`) on any key other than the five defined ones. -/
def ascii_chars (key : String) : Option (List Char) :=
  if key = "simple" then some simpleRamp.toList
  else if key = "standard" then some standardRamp.toList
  else if key = "detailed" then some detailedRamp.toList
  else if key = "gradient" then some gradientRamp.toList
  else if key = "blocks" then some blocksRamp.toList
  else none

/-- Pixel lookup in a grid, with out-of-grid defaulting to 0 (numpy indexing
in the source is always in bounds at the call sites that use this). -/
def pixAt (g : List (List ℕ)) (y x : ℕ) : ℕ :=
  (g.getD y []).getD x 0

/-- Height of a frame (`frame.shape[0]`). -/
def frameH (g : List (List ℕ)) : ℕ := g.length

/-- Width of a frame (`frame.shape[1]`). -/
def frameW (g : List (List ℕ)) : ℕ := (g.getD 0 []).length

/-- Per-sample Tone Adjuster (source lines 64-80 of `apply_image_effects`).
The sample value is carried as an exact fraction `n / d` with `d > 0`:
`v0 = p / 255` (line 65); if brightness ≠ 0, `clip(v + b, 0, 1)` (lines
68-69); if contrast ≠ 1, `clip((v - 0.5) * c + 0.5, 0, 1)` (lines 72-73);
if gamma ≠ 1, `v ** (1 / gamma)` (lines 76-77), a `ZeroDivisionError` when
gamma = 0; finally `(v * 255).astype(np.uint8)`, i.e. truncation followed by
a wrap modulo 256 (line 80). -/
noncomputable def toneSample (b c g : ℚ) (p : ℕ) : Option ℕ :=
  let n0 : ℤ := p
  let d0 : ℤ := 255
  let n1 : ℤ := if b ≠ 0 then max 0 (min (d0 * b.den) (n0 * b.den + d0 * b.num)) else n0
  let d1 : ℤ := if b ≠ 0 then d0 * b.den else d0
  let n2 : ℤ := if c ≠ 1 then max 0 (min (2 * d1 * c.den) ((2 * n1 - d1) * c.num + d1 * c.den)) else n1
  let d2 : ℤ := if c ≠ 1 then 2 * d1 * c.den else d1
  if g = 1 then some ((((255 * n2).fdiv d2) % 256).toNat)
  else if g = 0 then none
  else some ((((Int.floor (((n2 : ℝ) / (d2 : ℝ)) ^ (1 / (g : ℝ)) * 255)) % 256)).toNat)

/-- Tone Adjuster lifted to a whole frame (the numpy array operations of
lines 64-80 act pointwise). -/
noncomputable def toneGrid (b c g : ℚ) (f : List (List ℕ)) : Option (List (List ℕ)) :=
  f.mapM (fun row => row.mapM (toneSample b c g))

/-- Blur kernel size (source lines 84-86): `max(1, int(blur * 5))`,
incremented when even.  Python `int()` truncates toward zero, modelled by
`Int.tdiv` on the exact fraction. -/
def kernelSize (blur : ℚ) : ℤ :=
  let k := max 1 (Int.tdiv (blur.num * 5) blur.den)
  if k % 2 = 0 then k + 1 else k

/-- Reflected border index (OpenCV default border `BORDER_REFLECT_101`),
used by the smoothing and gradient models.  A length-1 axis maps everything
to index 0, as OpenCV special-cases it. -/
def reflect101 (len : ℕ) (i : ℤ) : ℕ :=
  if len ≤ 1 then 0
  else
    let m : ℤ := 2 * len - 2
    let j := i % m
    if j < len then j.toNat else (m - j).toNat

/-- Modelled from the spec: `cv2.GaussianBlur` is external to the
repository; the spec asks for a separable Gaussian-style smoothing with a
given odd kernel size.  Modelled as the separable binomial (discrete
Gaussian) kernel of that size with reflected borders, each output rounded
to the nearest integer; the arithmetic is exact. -/
def gaussianBlurNat (k : ℕ) (g : List (List ℕ)) : List (List ℕ) :=
  let hsrc := frameH g
  let wsrc := frameW g
  let r := k / 2
  let den := 2 ^ (k - 1) * 2 ^ (k - 1)
  (List.range hsrc).map (fun (y : ℕ) =>
    (List.range wsrc).map (fun (x : ℕ) =>
      let s := ((List.range k).map (fun (dy : ℕ) =>
        ((List.range k).map (fun (dx : ℕ) =>
          Nat.choose (k - 1) dy * Nat.choose (k - 1) dx *
            pixAt g (reflect101 hsrc ((y : ℤ) + (dy : ℤ) - (r : ℤ)))
              (reflect101 wsrc ((x : ℤ) + (dx : ℤ) - (r : ℤ))))).sum)).sum
      (2 * s + den) / (2 * den)))

/-- Modelled from the spec: `cv2.Canny` is external to the repository; the
spec asks for a two-threshold gradient-based edge extractor producing a
binary edge image.  Modelled as a Sobel gradient with L1 magnitude
thresholded at the high threshold 150 (non-maximum suppression and
hysteresis omitted; no claim depends on this stage). -/
def cannyModel (g : List (List ℕ)) : List (List ℕ) :=
  let hsrc := frameH g
  let wsrc := frameW g
  (List.range hsrc).map (fun (y : ℕ) =>
    (List.range wsrc).map (fun (x : ℕ) =>
      let p : ℤ → ℤ → ℤ := fun dy dx =>
        (pixAt g (reflect101 hsrc ((y : ℤ) + dy)) (reflect101 wsrc ((x : ℤ) + dx)) : ℤ)
      let gx := p (-1) 1 + 2 * p 0 1 + p 1 1 - p (-1) (-1) - 2 * p 0 (-1) - p 1 (-1)
      let gy := p 1 (-1) + 2 * p 1 0 + p 1 1 - p (-1) (-1) - 2 * p (-1) 0 - p (-1) 1
      if 150 ≤ gx.natAbs + gy.natAbs then 255 else 0))

/-- Spatial Filter stage of `apply_image_effects` (source lines 82-98):
optional blur (lines 83-87), optional edge detection (lines 90-93), then
optional inversion `255 - sample` (lines 96-97), in that order. -/
def applyFilters (s : Settings) (g : List (List ℕ)) : List (List ℕ) :=
  let g1 := if 0 < s.blur then gaussianBlurNat (kernelSize s.blur).toNat g else g
  let g2 := if s.edge_detection then cannyModel g1 else g1
  if s.invert then g2.map (fun row => row.map (fun v => 255 - v)) else g2

/-- The full `apply_image_effects` (source lines 62-99): tone adjustment
followed by the spatial filters. -/
noncomputable def apply_image_effects (s : Settings) (f : List (List ℕ)) :
    Option (List (List ℕ)) :=
  (toneGrid s.brightness s.contrast s.gamma f).map (applyFilters s)

/-- Absolute difference of two samples (`cv2.absdiff`, exact). -/
def natAbsDiff (a b : ℕ) : ℕ := max a b - min a b

/-- Pointwise absolute difference of two grids (`cv2.absdiff`). -/
def absdiffGrid (a b : List (List ℕ)) : List (List ℕ) :=
  List.zipWith (fun ra rb => List.zipWith natAbsDiff ra rb) a b

/-- Modelled from the spec: `cv2.normalize(..., 0, 255, NORM_MINMAX)` is
external to the repository; the spec asks for a min-max stretch to the full
[0,255] range.  A constant grid maps to all zeros (as OpenCV does when
max = min); otherwise `round((v - lo) * 255 / (hi - lo))`, exact. -/
def normalizeMinMax (g : List (List ℕ)) : List (List ℕ) :=
  let xs := g.foldr (fun row acc => row ++ acc) []
  let lo := xs.min?.getD 0
  let hi := xs.max?.getD 0
  if hi = lo then g.map (fun row => row.map (fun _ => 0))
  else g.map (fun row => row.map (fun v => (2 * ((v - lo) * 255) + (hi - lo)) / (2 * (hi - lo))))

/-- `create_depth_map` (source lines 101-112): wide 15×15 Gaussian blur,
absolute difference with the original, min-max normalization to [0,255]. -/
def create_depth_map (g : List (List ℕ)) : List (List ℕ) :=
  let blurred := gaussianBlurNat 15 g
  normalizeMinMax (absdiffGrid g blurred)

/-- Source index and interpolation weight for one output coordinate of a
bilinear resize with pixel-center alignment: the sample coordinate is
`(i + 1/2) * src / dst - 1/2`, clamped below at 0, giving floor `i0`,
neighbour `i1` and fractional part `frac / (2 * dst)`.  Returns
`(i0, i1, frac)`. -/
def sampleAux (src dst i : ℕ) : ℕ × ℕ × ℕ :=
  let d : ℕ := 2 * dst
  let n : ℕ := (2 * (i : ℤ) * (src : ℤ) + (src : ℤ) - (dst : ℤ)).toNat
  let i0 : ℕ := min (n / d) (src - 1)
  (i0, min (i0 + 1) (src - 1), n % d)

/-- Modelled from the spec: `cv2.resize` (default bilinear interpolation) is
external to the repository; the spec asks for standard bilinear or area
interpolation.  Modelled as exact bilinear interpolation with pixel-center
alignment and rounding to nearest. -/
def bilinearResize (g : List (List ℕ)) (nw nh : ℕ) : List (List ℕ) :=
  let hsrc := frameH g
  let wsrc := frameW g
  (List.range nh).map (fun y =>
    (List.range nw).map (fun x =>
      match sampleAux hsrc nh y, sampleAux wsrc nw x with
      | (y0, y1, fy), (x0, x1, fx) =>
        let dy := 2 * nh
        let dx := 2 * nw
        let num := (dy - fy) * ((dx - fx) * pixAt g y0 x0 + fx * pixAt g y0 x1)
                 + fy * ((dx - fx) * pixAt g y1 x0 + fx * pixAt g y1 x1)
        (2 * num + dx * dy) / (2 * (dx * dy))))

/-- `cv2.resize` including its failure behaviour: OpenCV raises an error
when the requested or source size has a zero dimension. -/
def resizeCv (g : List (List ℕ)) (nw nh : ℕ) : Option (List (List ℕ)) :=
  if frameH g = 0 ∨ frameW g = 0 ∨ nw = 0 ∨ nh = 0 then none
  else some (bilinearResize g nw nh)

/-- Target grid height (source lines 125-130): aspect ratio `w / h`,
`new_height = int(new_width / aspect_ratio * 0.5)`, clamped by the height
setting when that is positive.  `int()` of the exact nonnegative value
`tw * h / (2 * w)` is natural-number division.  `tw` and `th` are the
width and height settings. -/
def computedHeight (tw th h w : ℕ) : ℕ :=
  let nh0 := tw * h / (2 * w)
  if 0 < th then min nh0 th else nh0

/-- Depth fusion (source line 145):
`(gray * 0.7 + depth * 0.3).astype(np.uint8)`, i.e. exact value
`(7 * a + 3 * b) / 10` truncated and wrapped modulo 256. -/
def fuseDepth (gray depth : List (List ℕ)) : List (List ℕ) :=
  List.zipWith (fun ra rb => List.zipWith (fun a b => ((7 * a + 3 * b) / 10) % 256) ra rb)
    gray depth

/-- Depth stage of `frame_to_ascii` (source lines 140-145): when the depth
effect is enabled, the depth map is computed from the already-resized frame,
resized to the target dimensions, and fused with the resized intensities.
`depth` is the `depth_effect` setting. -/
def depthStage (depth : Bool) (resized : List (List ℕ)) (nw nh : ℕ) :
    Option (List (List ℕ)) :=
  if depth then
    (resizeCv (create_depth_map resized) nw nh).map (fun dm => fuseDepth resized dm)
  else some resized

/-- Glyph Quantizer index (source line 156):
`int(pixel_value * (len(chars) - 1) / 255)`.  `pixel_value` is a numpy
uint8 scalar and `len(chars) - 1` a Python int that fits in uint8, so the
product is computed in uint8 arithmetic and wraps modulo 256 before the
float division by 255 and the truncation. -/
def charIndex (n p : ℕ) : ℕ := ((p * (n - 1)) % 256) / 255

/-- Modelled from the spec (claim C10 wording): the quantizer index
`int(sample * (N - 1) / 255)` computed without the uint8 wrap, for
comparison with `charIndex`. -/
def specCharIndex (n p : ℕ) : ℕ := p * (n - 1) / 255

/-- ASCII output loop (source lines 151-158): one character per target grid
cell, indexing the ramp by `charIndex`. -/
def asciiGrid (chars : List Char) (g : List (List ℕ)) (nw nh : ℕ) : List (List Char) :=
  (List.range nh).map (fun y =>
    (List.range nw).map (fun x => chars.getD (charIndex chars.length (pixAt g y x)) ' '))

/-- `frame_to_ascii` after the image effects (source lines 119-160).
A zero frame height raises `ZeroDivisionError` at `width / height`
(line 125); a zero frame width raises `ZeroDivisionError` at
`new_width / aspect_ratio` (line 127); both are modelled as `none`. -/
def frameToAsciiFrom (s : Settings) (frame : List (List ℕ)) : Option (List (List Char)) :=
  let h := frameH frame
  let w := frameW frame
  if h = 0 then none
  else if w = 0 then none
  else
    let nw := s.width
    let nh := computedHeight s.width s.height h w
    (resizeCv frame nw nh).bind (fun resized =>
      (depthStage s.depth_effect resized nw nh).bind (fun gray2 =>
        (ascii_chars s.char_set).map (fun chars => asciiGrid chars gray2 nw nh)))

/-- The full `frame_to_ascii` (source lines 114-160): image effects, resize,
optional depth fusion, glyph quantization.  The output is the character grid
(the source joins it with newlines when returning the string). -/
noncomputable def frame_to_ascii (s : Settings) (f : List (List ℕ)) :
    Option (List (List Char)) :=
  (apply_image_effects s f).bind (frameToAsciiFrom s)

/-- Modelled from the spec (claim C4 wording): kernel size
`max(1, round(strength * 5))`, incremented to the next odd value when even;
`round` is taken as round-half-up on the exact value. -/
def claimKernelSize (blur : ℚ) : ℤ :=
  let k := max 1 ((10 * blur.num + (blur.den : ℤ)).fdiv (2 * blur.den))
  if k % 2 = 0 then k + 1 else k

/-- Modelled from the spec (claim C3 wording): depth fusion
`round(intensity * 0.7 + depth * 0.3)` clamped to [0,255], with `round`
taken as round-half-up on the exact value. -/
def specFuse (a b : ℕ) : ℕ := min 255 ((14 * a + 6 * b + 10) / 20)

/-- Pointwise `specFuse` on grids. -/
def specFuseGrid (gray depth : List (List ℕ)) : List (List ℕ) :=
  List.zipWith (fun ra rb => List.zipWith specFuse ra rb) gray depth

/-- Modelled from the spec (claim C3 wording): the pipeline as claim C3
describes it — the depth map is computed from the pre-resize tone/filter
adjusted frame, then resized to the target grid dimensions, and fused after
resizing with `specFuse`. -/
noncomputable def frameToAsciiSpecC3 (s : Settings) (f : List (List ℕ)) :
    Option (List (List Char)) :=
  (apply_image_effects s f).bind (fun eff =>
    let h := frameH eff
    let w := frameW eff
    if h = 0 then none
    else if w = 0 then none
    else
      let nw := s.width
      let nh := computedHeight s.width s.height h w
      (resizeCv eff nw nh).bind (fun resized =>
        (resizeCv (create_depth_map eff) nw nh).bind (fun depth =>
          (ascii_chars s.char_set).map (fun chars =>
            asciiGrid chars (specFuseGrid resized depth) nw nh))))


/-! ### Generic list helpers -/

/-- Length preservation of a successful monadic map over `Option`. -/
lemma mapM_some_length {α β : Type} (f : α → Option β) :
    ∀ {l : List α} {l' : List β}, l.mapM f = some l' → l'.length = l.length := by
  intro l
  induction l with
  | nil =>
    intro l' h
    have h0 : (some [] : Option (List β)) = some l' := h
    simp only [Option.some.injEq] at h0
    subst h0
    rfl
  | cons a t ih =>
    intro l' h
    rw [List.mapM_cons] at h
    cases hfa : f a with
    | none => rw [hfa] at h; simp at h
    | some b =>
      rw [hfa] at h
      cases hmt : t.mapM f with
      | none => rw [hmt] at h; simp at h
      | some bs =>
        rw [hmt] at h
        simp at h
        subst h
        simp [ih hmt]

/-- A monadic map whose entries all succeed with property `P` succeeds with
all outputs satisfying `P`. -/
lemma mapM_total {α β : Type} (f : α → Option β) (P : β → Prop)
    (hf : ∀ a : α, ∃ b, f a = some b ∧ P b) :
    ∀ l : List α, ∃ l', l.mapM f = some l' ∧ ∀ b ∈ l', P b := by
  intro l
  induction l with
  | nil => exact ⟨[], rfl, by simp⟩
  | cons a t ih =>
    obtain ⟨b, hb, hPb⟩ := hf a
    obtain ⟨l', hl', hP⟩ := ih
    refine ⟨b :: l', ?_, ?_⟩
    · rw [List.mapM_cons, hb, hl']; rfl
    · intro x hx
      rcases List.mem_cons.mp hx with h | h
      · subst h; exact hPb
      · exact hP x h

/-- A monadic map whose entries are all the same constant. -/
lemma mapM_const {α β : Type} (f : α → Option β) (c : β) (hf : ∀ a : α, f a = some c) :
    ∀ l : List α, l.mapM f = some (l.map fun _ => c) := by
  intro l
  induction l with
  | nil => rfl
  | cons a t ih => rw [List.mapM_cons, hf, ih]; rfl

/-! ### Shape preservation through the pipeline stages -/

/-- Shape preservation of the Tone Adjuster on frames. -/
lemma toneGrid_shape (b c gam : ℚ) (f t : List (List ℕ))
    (h : toneGrid b c gam f = some t) :
    frameH t = frameH f ∧ frameW t = frameW f := by
  unfold toneGrid at h
  cases f with
  | nil =>
    have h0 : (some [] : Option (List (List ℕ))) = some t := h
    simp only [Option.some.injEq] at h0
    subst h0
    exact ⟨rfl, rfl⟩
  | cons r rs =>
    rw [List.mapM_cons] at h
    cases hr : r.mapM (toneSample b c gam) with
    | none => rw [hr] at h; simp at h
    | some r' =>
      rw [hr] at h
      cases hrs : rs.mapM (fun row => row.mapM (toneSample b c gam)) with
      | none => rw [hrs] at h; simp at h
      | some rs' =>
        rw [hrs] at h
        simp at h
        subst h
        constructor
        · simp [frameH, mapM_some_length _ hrs]
        · simp [frameW, mapM_some_length _ hr]

/-- Shape preservation of the smoothing model. -/
lemma gaussianBlurNat_shape (k : ℕ) (g : List (List ℕ)) :
    frameH (gaussianBlurNat k g) = frameH g ∧ frameW (gaussianBlurNat k g) = frameW g := by
  cases g with
  | nil => exact ⟨rfl, rfl⟩
  | cons r rs =>
    constructor
    · simp [gaussianBlurNat, frameH]
    · simp [gaussianBlurNat, frameW, frameH, List.range_succ_eq_map]

/-- Shape preservation of the edge-extraction model. -/
lemma cannyModel_shape (g : List (List ℕ)) :
    frameH (cannyModel g) = frameH g ∧ frameW (cannyModel g) = frameW g := by
  cases g with
  | nil => exact ⟨rfl, rfl⟩
  | cons r rs =>
    constructor
    · simp [cannyModel, frameH]
    · simp [cannyModel, frameW, frameH, List.range_succ_eq_map]

/-- Shape preservation of a pointwise sample map (the inversion stage). -/
lemma mapmap_shape (g : List (List ℕ)) (f : ℕ → ℕ) :
    frameH (g.map (fun row => row.map f)) = frameH g ∧
      frameW (g.map (fun row => row.map f)) = frameW g := by
  cases g with
  | nil => exact ⟨rfl, rfl⟩
  | cons r rs => simp [frameH, frameW]

/-- Shape preservation of the Spatial Filter stage. -/
lemma applyFilters_shape (s : Settings) (g : List (List ℕ)) :
    frameH (applyFilters s g) = frameH g ∧ frameW (applyFilters s g) = frameW g := by
  unfold applyFilters
  by_cases hb : 0 < s.blur <;> by_cases he : s.edge_detection <;> by_cases hi : s.invert <;>
    simp only [hb, he, hi, if_pos, if_neg, if_true, if_false] <;>
    first
      | exact ⟨rfl, rfl⟩
      | (constructor <;>
          simp [(mapmap_shape _ _).1, (mapmap_shape _ _).2,
            (gaussianBlurNat_shape _ _).1, (gaussianBlurNat_shape _ _).2,
            (cannyModel_shape _).1, (cannyModel_shape _).2])

/-- Shape preservation of `apply_image_effects`. -/
lemma apply_image_effects_shape (s : Settings) (f eff : List (List ℕ))
    (h : apply_image_effects s f = some eff) :
    frameH eff = frameH f ∧ frameW eff = frameW f := by
  unfold apply_image_effects at h
  cases ht : toneGrid s.brightness s.contrast s.gamma f with
  | none => rw [ht] at h; simp at h
  | some t =>
    rw [ht] at h
    simp at h
    subst h
    obtain ⟨h1, h2⟩ := toneGrid_shape _ _ _ _ _ ht
    obtain ⟨h3, h4⟩ := applyFilters_shape s t
    exact ⟨by rw [h3, h1], by rw [h4, h2]⟩

/-! ### Small arithmetic helpers -/

/-- A value wrapped into uint8 range is at most 255. -/
lemma uint8_wrap_le (x : ℤ) : (x % 256).toNat ≤ 255 := by omega

/-- The Tone Adjuster never fails on a sample when gamma is nonzero, and its
output is a uint8 sample. -/
lemma toneSample_ne_zero_total (b c gam : ℚ) (p : ℕ) (hg : gam ≠ 0) :
    ∃ r, toneSample b c gam p = some r ∧ r ≤ 255 := by
  unfold toneSample
  by_cases h1 : gam = 1
  · exact ⟨_, by rw [if_pos h1], uint8_wrap_le _⟩
  · exact ⟨_, by rw [if_neg h1, if_neg hg], uint8_wrap_le _⟩

/-- The wrapped quantizer index is never more than 1: the uint8 product is
at most 255, so dividing it by 255 leaves 0 or 1. -/
lemma charIndex_le_one (n p : ℕ) : charIndex n p ≤ 1 := by
  unfold charIndex
  have h : (p * (n - 1)) % 256 ≤ 255 := by omega
  calc (p * (n - 1)) % 256 / 255 ≤ 255 / 255 := Nat.div_le_div_right h
    _ = 1 := rfl

/-! ### Claim C2 -/

/-- C2, counterexample: the claim states that for any finite gamma
(including non-positive values) the Tone Adjuster clamps and never rejects;
but at gamma = 0 the source raises `ZeroDivisionError` computing
`1.0 / gamma` (line 77), so the frame is rejected and no output exists. -/
theorem c2_gamma_zero_counterexample : toneGrid 0 1 0 [[128]] = none := by decide

/-- C2, amended: for every frame and any finite brightness and contrast and
any nonzero gamma, the Tone Adjuster succeeds and every output sample lies
in [0,255] (for negative gamma this is due to the modulo-256 wrap of the
uint8 conversion, not clamping); gamma = 0 raises a division error. -/
theorem c2_tone_range_amended (b c gam : ℚ) (f : List (List ℕ)) (hg : gam ≠ 0) :
    ∃ t, toneGrid b c gam f = some t ∧ ∀ row ∈ t, ∀ v ∈ row, v ≤ 255 := by
  unfold toneGrid
  exact mapM_total _ (fun row => ∀ v ∈ row, v ≤ 255)
    (fun row => mapM_total (toneSample b c gam) (fun v => v ≤ 255)
      (fun p => toneSample_ne_zero_total b c gam p hg) row) f

/-- C2, witness for the amended theorem at gamma = 2. -/
theorem c2_tone_range_amended_witness :
    (2 : ℚ) ≠ 0 ∧ ∃ t, toneGrid 0 1 2 [[128]] = some t ∧ ∀ row ∈ t, ∀ v ∈ row, v ≤ 255 :=
  ⟨by norm_num, c2_tone_range_amended 0 1 2 [[128]] (by norm_num)⟩

/-! ### Claim C4 -/

/-- C4, counterexample: at blur strength 19/50 the exact value of
`strength * 5` is 1.9; the source computes `int(1.9) = 1` (odd, kept), while
the claim's `round(1.9) = 2` would be incremented to 3.  So the claimed
kernel-size formula disagrees with the code. -/
theorem c4_kernel_round_counterexample :
    (0 : ℚ) < Rat.mk' 19 50 ∧ kernelSize (Rat.mk' 19 50) ≠ claimKernelSize (Rat.mk' 19 50) :=
  ⟨by decide, by decide⟩

/-- C4, amended: for every blur strength s > 0 the kernel size is
`max(1, trunc(s * 5))` (truncation, not rounding), incremented to the next
odd value when even: it is odd and within one of `max(1, trunc(s * 5))`. -/
theorem c4_kernel_size_amended (b : ℚ) (hb : 0 < b) :
    Odd (kernelSize b) ∧ max 1 (Int.tdiv (b.num * 5) b.den) ≤ kernelSize b ∧
      kernelSize b ≤ max 1 (Int.tdiv (b.num * 5) b.den) + 1 := by
  simp only [kernelSize]
  generalize max 1 (Int.tdiv (b.num * 5) (b.den : ℤ)) = k
  rcases Int.emod_two_eq k with h | h
  · rw [if_pos h]
    exact ⟨Int.odd_iff.mpr (by omega), by omega, by omega⟩
  · rw [if_neg (by omega)]
    exact ⟨Int.odd_iff.mpr (by omega), le_refl _, by omega⟩

/-- C4, witness for the amended theorem at blur strength 1/2. -/
theorem c4_kernel_size_amended_witness :
    (0 : ℚ) < Rat.mk' 1 2 ∧
      (Odd (kernelSize (Rat.mk' 1 2)) ∧
        max 1 (Int.tdiv ((Rat.mk' 1 2).num * 5) (Rat.mk' 1 2).den) ≤ kernelSize (Rat.mk' 1 2) ∧
        kernelSize (Rat.mk' 1 2) ≤ max 1 (Int.tdiv ((Rat.mk' 1 2).num * 5) (Rat.mk' 1 2).den) + 1) :=
  ⟨by decide, c4_kernel_size_amended (Rat.mk' 1 2) (by decide)⟩

/-! ### Claim C5 -/

/-- C5: a frame with zero width or zero height makes the pipeline fail
(`ZeroDivisionError` at the aspect-ratio computation, lines 125-127) rather
than produce a degenerate character grid. -/
theorem c5_zero_dim_fails (s : Settings) (f : List (List ℕ))
    (h : frameW f = 0 ∨ frameH f = 0) : frame_to_ascii s f = none := by
  unfold frame_to_ascii
  cases happly : apply_image_effects s f with
  | none => rfl
  | some eff =>
    obtain ⟨h1, h2⟩ := apply_image_effects_shape s f eff happly
    simp only [Option.some_bind]
    rcases h with hw | hh
    · by_cases h0 : frameH eff = 0
      · simp [frameToAsciiFrom, h0]
      · have hweff : frameW eff = 0 := by rw [h2, hw]
        simp [frameToAsciiFrom, h0, hweff]
    · have hheff : frameH eff = 0 := by rw [h1, hh]
      simp [frameToAsciiFrom, hheff]

/-- C5, witness at the empty frame. -/
theorem c5_zero_dim_fails_witness :
    (frameW ([] : List (List ℕ)) = 0 ∨ frameH ([] : List (List ℕ)) = 0) ∧
      frame_to_ascii defaultSettings [] = none :=
  ⟨by decide, c5_zero_dim_fails defaultSettings [] (by decide)⟩

/-! ### Claim C7 -/

/-- C7, counterexample: the quantizer of line 156 is not monotone, because
the uint8 product wraps: with the 70-character standard ramp, sample 115
maps to index 1 (115·69 = 7935 ≡ 255 mod 256, and 255/255 = 1) while the
larger sample 116 maps to index 0 (116·69 = 8004 ≡ 68 mod 256). -/
theorem c7_quantizer_monotone_counterexample :
    2 ≤ 70 ∧ 115 ≤ 116 ∧ 116 ≤ 255 ∧ ¬(charIndex 70 115 ≤ charIndex 70 116) :=
  ⟨by decide, by decide, by decide, by decide⟩

/-- C7, amended: the quantizer is order-preserving only while the scaled
product does not overflow uint8: for a ramp of length at least 2 and samples
a ≤ b in [0,255] with b * (N - 1) ≤ 255, the index of a is at most the index
of b; beyond that the modulo-256 wrap of the uint8 product breaks
monotonicity. -/
theorem c7_quantizer_monotone (n a b : ℕ) (hn : 2 ≤ n) (hab : a ≤ b) (hb : b ≤ 255)
    (hwrap : b * (n - 1) ≤ 255) : charIndex n a ≤ charIndex n b := by
  unfold charIndex
  have ha : a * (n - 1) ≤ 255 := le_trans (Nat.mul_le_mul_right _ hab) hwrap
  rw [Nat.mod_eq_of_lt (by omega), Nat.mod_eq_of_lt (by omega)]
  exact Nat.div_le_div_right (Nat.mul_le_mul_right _ hab)

/-- C7, witness at n = 10, a = 3, b = 20 (no uint8 overflow: 20·9 = 180). -/
theorem c7_quantizer_monotone_witness :
    2 ≤ 10 ∧ 3 ≤ 20 ∧ 20 ≤ 255 ∧ 20 * (10 - 1) ≤ 255 ∧ charIndex 10 3 ≤ charIndex 10 20 :=
  ⟨by decide, by decide, by decide, by decide,
    c7_quantizer_monotone 10 3 20 (by decide) (by decide) (by decide) (by decide)⟩

/-! ### Claim C10 -/

/-- C10, counterexample: the claim describes the index as
`int(sample * (N - 1) / 255)`, but line 156 computes the product in uint8
arithmetic: at sample 255 with the 70-character ramp the claimed formula
gives 69 while the code's wrapped index is 0 (255·69 = 17595 ≡ 187 mod
256). -/
theorem c10_ramp_index_counterexample :
    charIndex 70 255 = 0 ∧ specCharIndex 70 255 = 69 ∧
      charIndex 70 255 ≠ specCharIndex 70 255 :=
  ⟨by decide, by decide, by decide⟩

/-- C10, amended: the index the code computes is
`int(((sample * (N - 1)) mod 256) / 255)`, which is always 0 or 1; each of
the five defined ramps has length at least 2, so the unchecked ramp indexing
of line 157 never goes out of range. -/
theorem c10_ramp_index_bounds (key : String) (ramp : List Char) (p : ℕ)
    (hkey : ascii_chars key = some ramp) (hp : p ≤ 255) :
    charIndex ramp.length p < ramp.length := by
  have hlen : 2 ≤ ramp.length := by
    unfold ascii_chars at hkey
    split_ifs at hkey <;>
      first
        | (injection hkey with h; subst h; decide)
        | exact absurd hkey (by simp)
  have hle := charIndex_le_one ramp.length p
  omega

/-- C10, witness at the simple ramp and sample 200. -/
theorem c10_ramp_index_bounds_witness :
    ascii_chars ("simple") = some simpleRamp.toList ∧ (200 : ℕ) ≤ 255 ∧
      charIndex simpleRamp.toList.length 200 < simpleRamp.toList.length :=
  ⟨by decide, by decide,
    c10_ramp_index_bounds ("simple") simpleRamp.toList 200 (by decide) (by decide)⟩

/-! ### Claim C1 -/

/-- C1, counterexample: with a 4×1 input frame (width 4, height 1, both
positive) and target width 1 (positive, height setting 0), the computed
height `int(1 / 4 * 0.5) = 0` is not clamped to 1: the resize call fails
(OpenCV rejects a zero-sized destination), so no grid with at least one row
is produced. -/
theorem c1_zero_height_counterexample :
    frame_to_ascii
        (Settings.mk 1 0 10 ("standard") ("grayscale") 1 0 1 false false false 0 ("medium"))
        [[0, 0, 0, 0]] = none := by decide

/-- C1, amended: whenever the pipeline does produce a character grid, the
grid has column count equal to the width setting, at least one row, and at
most `height` rows when the height setting is positive; but a computed
height that rounds to 0 is not clamped to 1 — the resize step fails instead
and no grid is produced. -/
theorem c1_grid_dims_amended (s : Settings) (f : List (List ℕ)) (g : List (List Char))
    (h : frame_to_ascii s f = some g) :
    1 ≤ g.length ∧ (∀ row ∈ g, row.length = s.width) ∧
      (0 < s.height → g.length ≤ s.height) := by
  unfold frame_to_ascii at h
  cases happly : apply_image_effects s f with
  | none => rw [happly] at h; simp at h
  | some eff =>
    rw [happly, Option.some_bind] at h
    simp only [frameToAsciiFrom] at h
    by_cases h0 : frameH eff = 0
    · rw [if_pos h0] at h; simp at h
    rw [if_neg h0] at h
    by_cases h1 : frameW eff = 0
    · rw [if_pos h1] at h; simp at h
    rw [if_neg h1] at h
    cases hrz : resizeCv eff s.width (computedHeight s.width s.height (frameH eff) (frameW eff)) with
    | none => rw [hrz] at h; simp at h
    | some rz =>
      rw [hrz, Option.some_bind] at h
      cases hds : depthStage s.depth_effect rz s.width
          (computedHeight s.width s.height (frameH eff) (frameW eff)) with
      | none => rw [hds] at h; simp at h
      | some g2 =>
        rw [hds, Option.some_bind] at h
        cases hch : ascii_chars s.char_set with
        | none => rw [hch] at h; simp at h
        | some chars =>
          rw [hch] at h
          simp only [Option.map_some'] at h
          have hg : g = asciiGrid chars g2 s.width
              (computedHeight s.width s.height (frameH eff) (frameW eff)) :=
            (Option.some.inj h).symm
          subst hg
          have hnh : computedHeight s.width s.height (frameH eff) (frameW eff) ≠ 0 := by
            simp only [resizeCv] at hrz
            by_cases hc : frameH eff = 0 ∨ frameW eff = 0 ∨ s.width = 0 ∨
                computedHeight s.width s.height (frameH eff) (frameW eff) = 0
            · rw [if_pos hc] at hrz; exact absurd hrz (by simp)
            · push_neg at hc; exact hc.2.2.2
          refine ⟨?_, ?_, ?_⟩
          · simp only [asciiGrid, List.length_map, List.length_range]
            omega
          · intro row hrow
            simp only [asciiGrid, List.mem_map] at hrow
            obtain ⟨y, hy, hrow⟩ := hrow
            subst hrow
            simp
          · intro hh
            simp only [asciiGrid, List.length_map, List.length_range]
            simp only [computedHeight, if_pos hh]
            exact min_le_right _ _

/-- C1, witness for the amended theorem: a successful run with target width
2 and height setting 24 on a 2×2 frame produces a 1-row, 2-column grid. -/
theorem c1_grid_dims_amended_witness :
    frame_to_ascii
        (Settings.mk 2 24 10 ("standard") ("grayscale") 1 0 1 false false false 0 ("medium"))
        [[0, 0], [0, 0]] = some [[' ', ' ']] ∧
      (1 ≤ ([[' ', ' ']] : List (List Char)).length ∧
        (∀ row ∈ ([[' ', ' ']] : List (List Char)), row.length = 2) ∧
        (0 < 24 → ([[' ', ' ']] : List (List Char)).length ≤ 24)) :=
  ⟨by decide,
    c1_grid_dims_amended
      (Settings.mk 2 24 10 ("standard") ("grayscale") 1 0 1 false false false 0 ("medium"))
      [[0, 0], [0, 0]] [[' ', ' ']] (by decide)⟩

/-! ### Claim C6 -/

/-- C6, counterexample: constructing settings with the unknown glyph-ramp
selector `zzz` raises no error (construction performs no validation), and
the error instead surfaces mid-stream: per-frame processing of a valid 1×1
frame fails (`KeyError` at the ramp lookup, line 148), while the same frame
with a known selector succeeds.  This contradicts the claim that the error
is raised at Parameter Set construction and never mid-stream. -/
theorem c6_construction_counterexample :
    frame_to_ascii
        (withCharSet
          (Settings.mk 2 1 10 ("standard") ("grayscale") 1 0 1 false false false 0 ("medium"))
          ("zzz"))
        [[0]] = none ∧
      frame_to_ascii
          (Settings.mk 2 1 10 ("standard") ("grayscale") 1 0 1 false false false 0 ("medium"))
          [[0]] = some [[' ', ' ']] :=
  ⟨by decide, by decide⟩

/-- C6, amended: an unknown glyph-ramp selector makes every per-frame
conversion fail mid-stream (`KeyError` at line 148) — construction performs
no validation — and the color mode is never consulted by the pipeline, so an
unknown color mode raises no error anywhere. -/
theorem c6_midstream_amended :
    (∀ (s : Settings) (f : List (List ℕ)),
        ascii_chars s.char_set = none → frame_to_ascii s f = none) ∧
      (∀ (s : Settings) (f : List (List ℕ)) (cm : String),
        frame_to_ascii (withColorMode s cm) f = frame_to_ascii s f) := by
  constructor
  · intro s f hcs
    unfold frame_to_ascii
    cases happly : apply_image_effects s f with
    | none => rfl
    | some eff =>
      simp only [Option.some_bind]
      simp only [frameToAsciiFrom]
      by_cases h0 : frameH eff = 0
      · rw [if_pos h0]
      · rw [if_neg h0]
        by_cases h1 : frameW eff = 0
        · rw [if_pos h1]
        · rw [if_neg h1]
          cases hrz : resizeCv eff s.width
              (computedHeight s.width s.height (frameH eff) (frameW eff)) with
          | none => rfl
          | some rz =>
            simp only [Option.some_bind]
            cases hds : depthStage s.depth_effect rz s.width
                (computedHeight s.width s.height (frameH eff) (frameW eff)) with
            | none => rfl
            | some g2 => simp [hcs]
  · intro s f cm
    rfl

/-- C6, witness for the amended theorem: the selector `bogus` is unknown and
a valid frame fails mid-stream. -/
theorem c6_midstream_amended_witness :
    ascii_chars (withCharSet defaultSettings ("bogus")).char_set = none ∧
      frame_to_ascii (withCharSet defaultSettings ("bogus")) [[0]] = none :=
  ⟨by decide,
    c6_midstream_amended.1 (withCharSet defaultSettings ("bogus")) [[0]] (by decide)⟩

/-! ### Claim C9 -/

/-- Congruence of the post-effects pipeline in the ramp selector: two
selectors with the same lookup result produce the same grid. -/
lemma frameToAsciiFrom_charset (s : Settings) (a b : String)
    (hab : ascii_chars a = ascii_chars b) (eff : List (List ℕ)) :
    frameToAsciiFrom (withCharSet s a) eff = frameToAsciiFrom (withCharSet s b) eff := by
  simp only [frameToAsciiFrom]
  dsimp only [withCharSet]
  rw [hab]

/-- C9: the `standard` and `detailed` ramps are character-for-character
identical, and the pipeline run with selector `standard` emits exactly the
same grid as with selector `detailed`, on every frame and settings. -/
theorem c9_standard_detailed_equal :
    standardRamp = detailedRamp ∧
      ∀ (s : Settings) (f : List (List ℕ)),
        frame_to_ascii (withCharSet s ("standard")) f =
          frame_to_ascii (withCharSet s ("detailed")) f := by
  refine ⟨by decide, ?_⟩
  intro s f
  unfold frame_to_ascii
  rw [show apply_image_effects (withCharSet s ("standard")) f =
      apply_image_effects (withCharSet s ("detailed")) f from rfl]
  cases h : apply_image_effects (withCharSet s ("detailed")) f with
  | none => rfl
  | some eff =>
    simp only [Option.some_bind]
    exact frameToAsciiFrom_charset s ("standard") ("detailed") (by decide) eff

/-! ### Claim C3 -/

/-- C3, counterexample: on a 2×2 zero frame with brightness 165/256 (a
setting that is exact in binary floating point and makes every tone-adjusted
sample exactly `int(255 * 165/256) = 164`), width 2, unconstrained height
and depth enabled, both depth maps are zero but the fusion differs: the code
truncates, `int(164 * 0.7) = 114`, whose uint8-wrapped quantizer index is 0
(114·69 ≡ 186 mod 256) and the cell is the ramp's space; the claim rounds,
`round(114.8) = 115`, whose index is 1 (115·69 ≡ 255 mod 256) and the cell
is the ramp's dot.  The emitted grids differ. -/
theorem c3_depth_order_counterexample :
    frame_to_ascii
        (Settings.mk 2 0 10 ("standard") ("grayscale") 1 (Rat.mk' 165 256) 1 false false true 0
          ("medium"))
        [[0, 0], [0, 0]] ≠
      frameToAsciiSpecC3
        (Settings.mk 2 0 10 ("standard") ("grayscale") 1 (Rat.mk' 165 256) 1 false false true 0
          ("medium"))
        [[0, 0], [0, 0]] := by decide

/-- C3, amended: with depth effect enabled, the depth map is computed from
the already-resized frame (not the pre-resize one), resized again to the
target dimensions, and fused as `trunc(intensity * 0.7 + depth * 0.3)`
wrapped into uint8 (truncation, not rounding; the value never exceeds 255 so
the wrap is vacuous). -/
theorem c3_depth_pipeline_amended (s : Settings) (f eff : List (List ℕ))
    (hdep : s.depth_effect = true) (heff : apply_image_effects s f = some eff)
    (h0 : frameH eff ≠ 0) (h1 : frameW eff ≠ 0) :
    frame_to_ascii s f =
      (resizeCv eff s.width (computedHeight s.width s.height (frameH eff) (frameW eff))).bind
        (fun rz =>
          (resizeCv (create_depth_map rz) s.width
              (computedHeight s.width s.height (frameH eff) (frameW eff))).bind
            (fun dm =>
              (ascii_chars s.char_set).map (fun chars =>
                asciiGrid chars (fuseDepth rz dm) s.width
                  (computedHeight s.width s.height (frameH eff) (frameW eff))))) := by
  unfold frame_to_ascii
  rw [heff, Option.some_bind]
  simp only [frameToAsciiFrom]
  rw [if_neg h0, if_neg h1]
  cases hrz : resizeCv eff s.width
      (computedHeight s.width s.height (frameH eff) (frameW eff)) with
  | none => rfl
  | some rz =>
    simp only [Option.some_bind]
    simp only [depthStage, hdep, if_true]
    cases hdm : resizeCv (create_depth_map rz) s.width
        (computedHeight s.width s.height (frameH eff) (frameW eff)) with
    | none => rfl
    | some dm => simp only [Option.map_some', Option.some_bind]

/-- C3, witness for the amended theorem on a concrete 2×2 frame. -/
theorem c3_depth_pipeline_amended_witness :
    (Settings.mk 2 1 10 ("standard") ("grayscale") 1 0 1 false false true 0
        ("medium")).depth_effect = true ∧
      apply_image_effects
        (Settings.mk 2 1 10 ("standard") ("grayscale") 1 0 1 false false true 0 ("medium"))
        [[0, 0], [0, 0]] = some [[0, 0], [0, 0]] ∧
      frameH ([[0, 0], [0, 0]] : List (List ℕ)) ≠ 0 ∧
      frameW ([[0, 0], [0, 0]] : List (List ℕ)) ≠ 0 ∧
      frame_to_ascii
          (Settings.mk 2 1 10 ("standard") ("grayscale") 1 0 1 false false true 0 ("medium"))
          [[0, 0], [0, 0]] =
        (resizeCv [[0, 0], [0, 0]] 2 (computedHeight 2 1 2 2)).bind
          (fun rz =>
            (resizeCv (create_depth_map rz) 2 (computedHeight 2 1 2 2)).bind
              (fun dm =>
                (ascii_chars ("standard")).map (fun chars =>
                  asciiGrid chars (fuseDepth rz dm) 2 (computedHeight 2 1 2 2)))) :=
  ⟨rfl, by decide, by decide, by decide,
    c3_depth_pipeline_amended
      (Settings.mk 2 1 10 ("standard") ("grayscale") 1 0 1 false false true 0 ("medium"))
      [[0, 0], [0, 0]] [[0, 0], [0, 0]] rfl (by decide) (by decide) (by decide)⟩

/-! ### Claim C8 helpers -/

/-- With brightness 1 (and contrast, gamma at their defaults) every sample
saturates: `clip(p / 255 + 1, 0, 1) = 1` and `1 * 255 = 255`. -/
lemma toneSample_bright_one (p : ℕ) : toneSample 1 1 1 p = some 255 := by
  simp only [toneSample, Rat.num_one, Rat.den_one]
  norm_num
  decide

/-- The Tone Adjuster with brightness 1, contrast 1, gamma 1 maps every
frame to the all-255 frame of the same shape. -/
lemma toneGrid_bright_one (f : List (List ℕ)) :
    toneGrid 1 1 1 f = some (f.map (fun row => row.map (fun _ => 255))) := by
  unfold toneGrid
  induction f with
  | nil => rfl
  | cons r rs ih =>
    rw [List.mapM_cons, mapM_const _ _ (fun p => toneSample_bright_one p) r, ih]
    rfl

/-- The Spatial Filter is the identity when blur, edge detection and
inversion are all disabled. -/
lemma applyFilters_id (s : Settings) (g : List (List ℕ)) (hb : s.blur = 0)
    (he : s.edge_detection = false) (hi : s.invert = false) : applyFilters s g = g := by
  simp [applyFilters, hb, he, hi]

/-- Pixel lookup in a rectangular constant grid. -/
lemma pixAt_const (g : List (List ℕ)) (c W : ℕ)
    (hrect : ∀ row ∈ g, row.length = W)
    (hconst : ∀ row ∈ g, ∀ v ∈ row, v = c)
    (y x : ℕ) (hy : y < frameH g) (hx : x < W) : pixAt g y x = c := by
  unfold pixAt
  rw [List.getD_eq_getElem g [] hy]
  have hmem : g[y] ∈ g := List.getElem_mem hy
  rw [List.getD_eq_getElem (g[y]) 0 (by rw [hrect _ hmem]; exact hx)]
  exact hconst _ hmem _ (List.getElem_mem _)

/-- Bounds of the bilinear sampling data. -/
lemma sampleAux_bounds (src dst i : ℕ) (hsrc : src ≠ 0) (hdst : dst ≠ 0) :
    (sampleAux src dst i).1 < src ∧ (sampleAux src dst i).2.1 < src ∧
      (sampleAux src dst i).2.2 < 2 * dst := by
  simp only [sampleAux]
  refine ⟨?_, ?_, ?_⟩
  · have := min_le_right
      (((2 * (i : ℤ) * (src : ℤ) + (src : ℤ) - (dst : ℤ)).toNat) / (2 * dst)) (src - 1)
    omega
  · have := min_le_right
      (min (((2 * (i : ℤ) * (src : ℤ) + (src : ℤ) - (dst : ℤ)).toNat) / (2 * dst)) (src - 1) + 1)
      (src - 1)
    omega
  · exact Nat.mod_lt _ (by omega)

/-- Rounding of an exact convex combination collapses on constants:
`(2 * (D * c) + D) / (2 * D) = c` for positive `D`. -/
lemma roundHalf_const (D c : ℕ) (hD : D ≠ 0) : (2 * (D * c) + D) / (2 * D) = c := by
  have h1 : 2 * (D * c) + D = 2 * D * c + D := by ring
  rw [h1, Nat.mul_add_div (by omega), Nat.div_eq_of_lt (by omega), Nat.add_zero]

/-- Bilinear resize of a rectangular constant grid is the constant grid of
the target size. -/
lemma bilinearResize_const (g : List (List ℕ)) (c nw nh : ℕ)
    (hrect : ∀ row ∈ g, row.length = frameW g)
    (hconst : ∀ row ∈ g, ∀ v ∈ row, v = c)
    (hH : frameH g ≠ 0) (hW : frameW g ≠ 0) (hnw : nw ≠ 0) (hnh : nh ≠ 0) :
    bilinearResize g nw nh =
      (List.range nh).map (fun _ => (List.range nw).map (fun _ => c)) := by
  simp only [bilinearResize]
  apply List.map_congr_left
  intro y hy
  apply List.map_congr_left
  intro x hx
  rcases hsy : sampleAux (frameH g) nh y with ⟨y0, y1, fy⟩
  rcases hsx : sampleAux (frameW g) nw x with ⟨x0, x1, fx⟩
  have hby := sampleAux_bounds (frameH g) nh y hH hnh
  have hbx := sampleAux_bounds (frameW g) nw x hW hnw
  rw [hsy] at hby
  rw [hsx] at hbx
  obtain ⟨hy0, hy1, hfy⟩ := hby
  obtain ⟨hx0, hx1, hfx⟩ := hbx
  rw [pixAt_const g c (frameW g) hrect hconst y0 x0 hy0 hx0,
    pixAt_const g c (frameW g) hrect hconst y0 x1 hy0 hx1,
    pixAt_const g c (frameW g) hrect hconst y1 x0 hy1 hx0,
    pixAt_const g c (frameW g) hrect hconst y1 x1 hy1 hx1]
  have e1 : (2 * nw - fx) * c + fx * c = 2 * nw * c := by
    rw [← add_mul, Nat.sub_add_cancel (le_of_lt hfx)]
  simp only [e1]
  have e2 : (2 * nh - fy) * (2 * nw * c) + fy * (2 * nw * c) = 2 * nh * (2 * nw * c) := by
    rw [← add_mul, Nat.sub_add_cancel (le_of_lt hfy)]
  rw [e2]
  have e3 : 2 * nh * (2 * nw * c) = 2 * nw * (2 * nh) * c := by ring
  have e4 : (2 : ℕ) * (2 * nh * (2 * nw * c)) = 2 * (2 * nw * (2 * nh) * c) := by ring
  rw [e4]
  exact roundHalf_const (2 * nw * (2 * nh)) c (by positivity)

/-- Pixel lookup in a generated constant grid. -/
lemma pixAt_constGrid (c nw nh y x : ℕ) (hy : y < nh) (hx : x < nw) :
    pixAt ((List.range nh).map (fun _ => (List.range nw).map (fun _ => c))) y x = c := by
  simp [pixAt, List.getD_eq_getElem?_getD, List.getElem?_map, List.getElem?_range, hy, hx]

/-- The quantizer maps the saturated sample 255 to ramp index 0 for every
defined ramp: `(255 * (N - 1)) mod 256 = 257 - N`, which is below 255 for
every ramp length `N ≥ 3`, and all five defined ramps have length ≥ 5. -/
lemma charIndex_255_defined (key : String) (ramp : List Char)
    (hkey : ascii_chars key = some ramp) : charIndex ramp.length 255 = 0 := by
  unfold ascii_chars at hkey
  split_ifs at hkey <;>
    first
      | (injection hkey with h; subst h; decide)
      | exact absurd hkey (by simp)

/-! ### Claim C8 -/

/-- C8, counterexample: brightness 1.0 saturates every sample to 255, but
the quantizer product wraps in uint8: 255·69 = 17595 ≡ 187 (mod 256), so
`char_index = int(187 / 255) = 0` and the program emits the ramp's FIRST
character (the space), not its final brightest `$`: the concrete run below
produces a grid of spaces, and the space differs from the ramp's last
character. -/
theorem c8_brightness_counterexample :
    frame_to_ascii
        (Settings.mk 2 1 10 ("standard") ("grayscale") 1 1 1 false false false 0 ("medium"))
        [[0]] = some [[' ', ' ']] ∧
      (' ') ≠ standardRamp.toList.getD (standardRamp.toList.length - 1) ' ' :=
  ⟨by decide, by decide⟩

/-- C8, amended: with brightness set to 1.0 and the other tone and filter
parameters at their defaults (contrast 1, gamma 1, no blur, no edge
detection, no inversion, no depth effect), every cell of any character grid
the pipeline produces is the FIRST character of the configured ramp (index
0): the saturated sample 255 wraps in the uint8 quantizer to index 0 for
every defined ramp. -/
theorem c8_brightness_first_amended (s : Settings) (f : List (List ℕ)) (g : List (List Char))
    (ramp : List Char)
    (hrect : ∀ row ∈ f, row.length = frameW f)
    (hb : s.brightness = 1) (hc : s.contrast = 1) (hg : s.gamma = 1)
    (hinv : s.invert = false) (hedge : s.edge_detection = false)
    (hdep : s.depth_effect = false) (hblur : s.blur = 0)
    (hrun : frame_to_ascii s f = some g) (hchars : ascii_chars s.char_set = some ramp) :
    ∀ row ∈ g, ∀ ch ∈ row, ch = ramp.getD 0 ' ' := by
  have heff : apply_image_effects s f =
      some (f.map (fun row => row.map (fun _ => 255))) := by
    unfold apply_image_effects
    rw [hb, hc, hg, toneGrid_bright_one, Option.map_some',
      applyFilters_id s _ hblur hedge hinv]
  have heffshape := mapmap_shape f (fun _ => (255 : ℕ))
  unfold frame_to_ascii at hrun
  rw [heff, Option.some_bind] at hrun
  simp only [frameToAsciiFrom] at hrun
  by_cases h0 : frameH (f.map (fun row => row.map (fun _ => 255))) = 0
  · rw [if_pos h0] at hrun; simp at hrun
  rw [if_neg h0] at hrun
  by_cases h1 : frameW (f.map (fun row => row.map (fun _ => 255))) = 0
  · rw [if_pos h1] at hrun; simp at hrun
  rw [if_neg h1] at hrun
  cases hrz : resizeCv (f.map (fun row => row.map (fun _ => 255))) s.width
      (computedHeight s.width s.height
        (frameH (f.map (fun row => row.map (fun _ => 255))))
        (frameW (f.map (fun row => row.map (fun _ => 255))))) with
  | none => rw [hrz] at hrun; simp at hrun
  | some rz =>
    rw [hrz, Option.some_bind, hdep] at hrun
    simp only [depthStage, Bool.false_eq_true, if_false, Option.some_bind] at hrun
    rw [hchars] at hrun
    simp only [Option.map_some'] at hrun
    have hwidth : s.width ≠ 0 ∧
        computedHeight s.width s.height
          (frameH (f.map (fun row => row.map (fun _ => 255))))
          (frameW (f.map (fun row => row.map (fun _ => 255)))) ≠ 0 ∧
        rz = bilinearResize (f.map (fun row => row.map (fun _ => 255))) s.width
          (computedHeight s.width s.height
            (frameH (f.map (fun row => row.map (fun _ => 255))))
            (frameW (f.map (fun row => row.map (fun _ => 255))))) := by
      simp only [resizeCv] at hrz
      by_cases hcnd : frameH (f.map (fun row => row.map (fun _ => 255))) = 0 ∨
          frameW (f.map (fun row => row.map (fun _ => 255))) = 0 ∨ s.width = 0 ∨
          computedHeight s.width s.height
            (frameH (f.map (fun row => row.map (fun _ => 255))))
            (frameW (f.map (fun row => row.map (fun _ => 255)))) = 0
      · rw [if_pos hcnd] at hrz; exact absurd hrz (by simp)
      · push_neg at hcnd
        rw [if_neg (by push_neg; exact hcnd)] at hrz
        exact ⟨hcnd.2.2.1, hcnd.2.2.2, (Option.some.inj hrz).symm⟩
    obtain ⟨hnw, hnh, hrzc⟩ := hwidth
    have hrzconst : rz = (List.range (computedHeight s.width s.height
          (frameH (f.map (fun row => row.map (fun _ => 255))))
          (frameW (f.map (fun row => row.map (fun _ => 255)))))).map
        (fun _ => (List.range s.width).map (fun _ => 255)) := by
      rw [hrzc]
      apply bilinearResize_const
      · intro row hrow
        rw [List.mem_map] at hrow
        obtain ⟨r, hr, hrr⟩ := hrow
        subst hrr
        rw [List.length_map, heffshape.2]
        exact hrect r hr
      · intro row hrow v hv
        rw [List.mem_map] at hrow
        obtain ⟨r, hr, hrr⟩ := hrow
        subst hrr
        rw [List.mem_map] at hv
        obtain ⟨p, hp, hpv⟩ := hv
        exact hpv.symm
      · exact h0
      · exact h1
      · exact hnw
      · exact hnh
    have hgq : g = asciiGrid ramp rz s.width
        (computedHeight s.width s.height
          (frameH (f.map (fun row => row.map (fun _ => 255))))
          (frameW (f.map (fun row => row.map (fun _ => 255))))) :=
      (Option.some.inj hrun).symm
    subst hgq
    intro row hrow ch hch
    simp only [asciiGrid, List.mem_map] at hrow
    obtain ⟨y, hy, hrow⟩ := hrow
    subst hrow
    simp only [List.mem_map] at hch
    obtain ⟨x, hx, hch⟩ := hch
    subst hch
    rw [List.mem_range] at hy
    rw [List.mem_range] at hx
    rw [hrzconst, pixAt_constGrid 255 s.width _ y x hy hx,
    charIndex_255_defined s.char_set ramp hchars]

/-- C8, witness for the amended theorem: brightness 1 on a 1×1 zero frame
with target width 2 and height 1 produces a grid whose cells are all the
first character of the standard ramp. -/
theorem c8_brightness_first_amended_witness :
    frame_to_ascii
        (Settings.mk 2 1 10 ("standard") ("grayscale") 1 1 1 false false false 0 ("medium"))
        [[0]] = some [[' ', ' ']] ∧
      ∀ row ∈ ([[' ', ' ']] : List (List Char)), ∀ ch ∈ row,
        ch = standardRamp.toList.getD 0 ' ' :=
  ⟨by decide,
    c8_brightness_first_amended
      (Settings.mk 2 1 10 ("standard") ("grayscale") 1 1 1 false false false 0 ("medium"))
      [[0]] [[' ', ' ']] standardRamp.toList (by decide) rfl rfl rfl rfl rfl rfl rfl
      (by decide) (by decide)⟩
